import Mathlib

/-!
Shallow embedding of `astroquery/cadc/core.py` (the CADC query module).

The module's effectful parts (HTTP requests, the function-attribute registry
cache of `get_access_url`) are modelled by explicit state passing: a `PState`
carries the process-wide capability cache and a log of the HTTP requests
issued so far, and the remote side is an oracle record `Net` giving the
response each request would receive.  Pure parts (ADQL construction, chunking,
capability-document matching) are plain functions.
-/

/-- Errors raised by the Python code: `AttributeError`, `ValueError` (from
tuple unpacking in the registry parser), `RuntimeError`, and HTTP errors
surfaced by `raise_for_status` / `HTTPError` (identified by status code). -/
inductive Err where
  | attributeError (msg : String)
  | valueError (msg : String)
  | runtimeError (msg : String)
  | httpError (code : Nat)
deriving DecidableEq

/-- One HTTP request issued by the module, as recorded in the log:
the registry feed fetch, a capabilities-document fetch, a batched DataLink
request (`get_image_list`), a per-ID DataLink request (`get_data_urls`),
and a file retrieval (`get_images`). -/
inductive Request where
  | registry
  | capsFetch (url : String)
  | datalinkBatch (url : String)
  | datalinkGet (id : String)
  | fileGet (url : String)
deriving DecidableEq

/-- A `<securitymethod>` element of a capabilities document: its optional
`standardid` attribute. -/
structure SecurityMethod where
  standardid : Option String
deriving DecidableEq

/-- An `<interface>` element: the first `<securitymethod>` child (if any)
and the text of its `<accessurl>` child. -/
structure Interface where
  securitymethod : Option SecurityMethod
  accessurl : String
deriving DecidableEq

/-- A `<capability>` element: its optional `standardid` attribute and its
`<interface>` children. -/
structure Capability where
  standardid : Option String
  interfaces : List Interface
deriving DecidableEq

/-- A parsed capabilities document: the `<capability>` elements in document
order (`soup.find_all('capability')`). -/
abbrev CapsDoc := List Capability

/-- A row of a DataLink response VOTable as read by `get_data_urls`:
the `semantics` and `access_url` fields (already decoded to text). -/
structure DLRow where
  semantics : String
  access_url : String
deriving DecidableEq

/-- A DataLink service descriptor as consumed by `get_image_list` via
pyvo's `bysemantics` iterator: semantics tag, access URL and the declared
input parameters (name/value pairs). -/
structure ServiceDef where
  semantics : String
  access_url : String
  input_params : List (String × String)
deriving DecidableEq

/-- A TAP query result table: its row count (`len(query_result)`, which
drives Python truthiness) and its named columns of string cells. -/
structure QueryResult where
  nrows : Nat
  columns : List (String × List String)
deriving DecidableEq

/-- The payload built by `_args_to_payload`.  The Python source writes
`payload = {format: 'VOTable'}` (the key is the `format` builtin, a slip);
the entry is modelled as a dedicated field since only `query` is consumed. -/
structure Payload where
  fmt : String
  query : String
deriving DecidableEq

/-- Coordinates after `commons.parse_coordinates(...).fk5`: the decimal
renderings of `ra.degree` and `dec.degree` that are interpolated into
strings by the source. -/
structure Coord where
  ra : String
  dec : String
deriving DecidableEq

/-- Process state: the function attribute `get_access_url.caps` (a dict,
modelled as an association list with dict insert semantics) and the log of
HTTP requests issued so far. -/
structure PState where
  caps : List (String × String)
  log : List Request
deriving DecidableEq

/-- The remote side: what each request would answer.  `registry` is the
response to `GET conf.CADC_REGISTRY_URL`, `capabilities` maps a
capabilities URL to its parsed document, `datalink` maps a batched
DataLink URL to its service descriptors, `datalinkRows` maps a publisher ID
to the rows of the per-ID DataLink VOTable, `fileFits` maps a file URL to
the FITS content it serves.  `Except.error code` models an HTTP error. -/
structure Net where
  registry : Except Nat String
  capabilities : String → Except Nat CapsDoc
  datalink : String → Except Nat (List ServiceDef)
  datalinkRows : String → Except Nat (List DLRow)
  fileFits : String → Except Nat String

/-- Python dict assignment `d[k] = v`: replace the value when the key is
present, append otherwise. -/
def dictInsert (k v : String) (d : List (String × String)) : List (String × String) :=
  if d.any (fun p => p.1 = k) then
    d.map (fun p => if p.1 = k then (k, v) else p)
  else d ++ [(k, v)]

/-- String containment (Python's `in` on strings), via character lists. -/
def containsStr (needle hay : String) : Prop := needle.data <:+: hay.data

instance (a b : String) : Decidable (containsStr a b) :=
  inferInstanceAs (Decidable (a.data <:+: b.data))

/-- Python `urlencode(d)` over a dict, without percent-escaping (none of the
properties below depend on character escaping). -/
def urlencodePairs (d : List (String × String)) : String :=
  String.intercalate "&" (d.map (fun p => p.1 ++ "=" ++ p.2))

/-- Python `urlencode({'ID': ids}, True)`: one `ID=` pair per list element. -/
def urlencodeMulti (key : String) (vals : List String) : String :=
  String.intercalate "&" (vals.map (fun v => key ++ "=" ++ v))

/-- Python `str.startswith`, modelled on character lists (`String.startsWith`
is byte-indexed and does not reduce in the kernel). -/
def pyStartsWith (s pre : String) : Bool := pre.data.isPrefixOf s.data

/-- Helper for `pySplitOnChar`: split a character list at a separator. -/
def splitOnCharAux (sep : Char) : List Char → List Char → List String
  | [], acc => [⟨acc.reverse⟩]
  | c :: rest, acc =>
    if c = sep then ⟨acc.reverse⟩ :: splitOnCharAux sep rest []
    else splitOnCharAux sep rest (c :: acc)

/-- Python `str.split(sep)` for a one-character separator, on character
lists. -/
def pySplitOnChar (sep : Char) (s : String) : List String :=
  splitOnCharAux sep s.data []

/-- Python `str.splitlines()`, modelled as splitting on newline characters
(the difference — no empty trailing line, `\r` handling — is invisible to
the registry parser, which skips empty lines). -/
def pySplitLines (s : String) : List String := pySplitOnChar '\n' s

/-- Python `str.strip()`: drop whitespace from both ends. -/
def pyStrip (s : String) : String :=
  ⟨((s.data.dropWhile Char.isWhitespace).reverse.dropWhile Char.isWhitespace).reverse⟩

/-- The registry parsing loop of `get_access_url`: for each line with
`len(line) > 0 and not line.startswith('#')`, unpack `line.split('=')` into
exactly two parts (otherwise Python raises `ValueError`, with the entries
inserted so far kept in the dict) and insert the stripped pair. -/
def parseRegistryLines : List String → List (String × String) →
    List (String × String) × Option Err
  | [], caps => (caps, none)
  | line :: rest, caps =>
    if line.length > 0 && !(pyStartsWith line "#") then
      match pySplitOnChar '=' line with
      | [service_id, capabilies_url] =>
        parseRegistryLines rest (dictInsert (pyStrip service_id) (pyStrip capabilies_url) caps)
      | _ => (caps, some (.valueError "values to unpack"))
    else parseRegistryLines rest caps

/-- Whether a request in the log is the registry feed fetch. -/
def isRegistryReq : Request → Bool
  | .registry => true
  | _ => false

/-- Number of registry feed fetches recorded in a log. -/
def countRegistry (log : List Request) : Nat :=
  (log.filter isRegistryReq).length

/-- The interface acceptance test in `get_access_url`'s multi-interface
loop: `not sm or sm.get("standardid", None) is None or
sm['standardid'] == "ivo://ivoa.net/sso#cookie"`.  (The preceding
`hasattr(i, 'securitymethod')` is always true for a BeautifulSoup tag,
whose attribute lookup returns `None` for a missing child.) -/
def acceptableInterface (i : Interface) : Bool :=
  match i.securitymethod with
  | none => true
  | some sm =>
    match sm.standardid with
    | none => true
    | some sid => sid = "ivo://ivoa.net/sso#cookie"

/-- Interface selection within one matching `<capability>`:
`if len(cap.find_all('interface')) == 1: return cap.find_all('interface')[0]
.accessurl.text`, else loop over the interfaces and return the first
acceptable one. -/
def capabilityAccessUrl (cap : Capability) : Option String :=
  match cap.interfaces with
  | [i] => some i.accessurl
  | is => (is.find? acceptableInterface).map (fun i => i.accessurl)

/-- The capability loop of `get_access_url`: walk the `<capability>`
elements; for each one whose `standardid` equals the requested capability,
return its selected interface URL if any, otherwise keep scanning; `none`
models falling through to the final `RuntimeError`. -/
def selectAccessUrl (doc : CapsDoc) (capability : String) : Option String :=
  match doc with
  | [] => none
  | cap :: rest =>
    if cap.standardid = some capability then
      match capabilityAccessUrl cap with
      | some u => some u
      | none => selectAccessUrl rest capability
    else selectAccessUrl rest capability

/-- Lines 762-782 of `get_access_url`: fetch the capabilities document at
`caps_url` (HTTP errors propagate) and resolve the requested capability,
raising `RuntimeError` when nothing matches. -/
def resolveFromCapsUrl (net : Net) (caps_url : String) (capability : String)
    (st : PState) : Except Err String × PState :=
  let st := { st with log := st.log ++ [.capsFetch caps_url] }
  match net.capabilities caps_url with
  | .error code => (.error (.httpError code), st)
  | .ok doc =>
    match selectAccessUrl doc capability with
    | some u => (.ok u, st)
    | none => (.error (.runtimeError ("ERROR - capabilitiy " ++ capability ++
      " not found or not working with anonymous or cookie access")), st)

/-- The module-level `get_access_url(service, capability=None)`.
A `service` starting with `http` is used directly as the capabilities URL
(returned unchanged when no capability is requested).  Otherwise the
registry feed is fetched when the cached dict `get_access_url.caps` is
empty and parsed into it; the service is expanded to an `ivo://` URI when
needed and looked up, raising `AttributeError` on a miss. -/
def get_access_url (net : Net) (service : String) (capability : Option String)
    (st : PState) : Except Err String × PState :=
  if pyStartsWith service "http" then
    match capability with
    | none => (.ok service, st)
    | some c => resolveFromCapsUrl net service c st
  else
    let fetched : Option Err × PState :=
      if st.caps.isEmpty then
        let st := { st with log := st.log ++ [.registry] }
        match net.registry with
        | .error code => (some (Err.httpError code), st)
        | .ok text =>
          let pr := parseRegistryLines (pySplitLines text) st.caps
          ((pr.2 : Option Err), { st with caps := pr.1 })
      else (none, st)
    match fetched with
    | (some e, st) => (.error e, st)
    | (none, st) =>
      let service_uri :=
        if pyStartsWith service "ivo" then service
        else "ivo://cadc.nrc.ca/" ++ service
      match st.caps.lookup service_uri with
      | none => (.error (.attributeError
          ("Cannot find the capabilities of service " ++ service)), st)
      | some caps_url =>
        match capability with
        | none => (.ok caps_url, st)
        | some c => resolveFromCapsUrl net caps_url c st

/-- Run a sequence of `get_access_url` calls (discarding their results),
threading the process state; models repeated calls within one process. -/
def runCalls (net : Net) : List (String × Option String) → PState → PState
  | [], st => st
  | (service, capability) :: rest, st =>
    runCalls net rest (get_access_url net service capability st).2

/-- The literal pieces of the ADQL statement of `_args_to_payload`,
exactly as the implicitly concatenated Python string literals. -/
def adqlP1 : String := "SELECT * from caom2.Observation o join caom2.Plane p "

/-- Second ADQL literal piece. -/
def adqlP2 : String := "ON o.obsID=p.obsID "

/-- Third ADQL literal piece. -/
def adqlP3 : String := "WHERE INTERSECTS( "

/-- Start of the fourth ADQL literal piece, up to the first format slot. -/
def adqlP4 : String := "CIRCLE('ICRS', "

/-- Remainder of the fourth ADQL literal piece after the last format slot. -/
def adqlP5 : String := "), position_bounds) = 1 AND "

/-- Fifth ADQL literal piece. -/
def adqlP6 : String := "(quality_flag IS NULL OR quality_flag != 'junk')"

/-- The base ADQL statement of `_args_to_payload` with the coordinate and
radius renderings substituted for the `{}` slots. -/
def adqlBase (ra dec radius : String) : String :=
  adqlP1 ++ adqlP2 ++ adqlP3 ++ adqlP4 ++ ra ++ ", " ++ dec ++ ", " ++ radius ++
    adqlP5 ++ adqlP6

/-- The full query string of `_args_to_payload`: the base statement, plus
`" AND collection='{}'"` when a collection was supplied and is truthy
(non-empty). -/
def args_to_payload_query (ra dec radius : String) (collection : Option String) :
    String :=
  let query := adqlBase ra dec radius
  match collection with
  | some c => if c ≠ "" then query ++ " AND collection='" ++ c ++ "'" else query
  | none => query

/-- `CadcClass._args_to_payload`: parse the coordinates (modelled as already
rendered FK5 degrees), build the payload.  The body performs no HTTP
request and reads nothing from the process state. -/
def args_to_payload (coordinates : Coord) (radius : String)
    (collection : Option String) (st : PState) : Payload × PState :=
  ({ fmt := "VOTable",
     query := args_to_payload_query coordinates.ra coordinates.dec radius collection },
   st)

/-- The per-publisher-ID loop of `get_data_urls`: one GET per ID (logged),
`raise_for_status` propagating HTTP errors, then the row scan: a
`semantics == '#this'` row always contributes its `access_url`; any other
row contributes its `access_url` when it is non-empty (truthy) and
`include_auxiliaries` is set. -/
def getDataUrlsLoop (net : Net) (include_auxiliaries : Bool) :
    List String → List String → PState → Except Err (List String) × PState
  | [], result, st => (.ok result, st)
  | pid :: rest, result, st =>
    let st := { st with log := st.log ++ [.datalinkGet pid] }
    match net.datalinkRows pid with
    | .error code => (.error (.httpError code), st)
    | .ok rows =>
      let result := rows.foldl (fun acc row =>
        if row.semantics = "#this" then acc ++ [row.access_url]
        else if row.access_url ≠ "" ∧ include_auxiliaries = true then
          acc ++ [row.access_url]
        else acc) result
      getDataUrlsLoop net include_auxiliaries rest result st

/-- `CadcClass.get_data_urls`: an empty (falsy) result raises
`AttributeError('Missing metadata argument')`; a result without a
`publisherID` column raises `AttributeError` (whose message names
`caomPublisherID`); otherwise one DataLink request is made per ID. -/
def get_data_urls (net : Net) (query_result : QueryResult)
    (include_auxiliaries : Bool) (st : PState) :
    Except Err (List String) × PState :=
  if query_result.nrows = 0 then
    (.error (.attributeError "Missing metadata argument"), st)
  else
    match query_result.columns.lookup "publisherID" with
    | none => (.error (.attributeError
        "caomPublisherID column missing from query_result argument"), st)
    | some publisher_ids =>
      getDataUrlsLoop net include_auxiliaries publisher_ids [] st

/-- The `chunks` generator of `get_image_list`: slices
`obj_list[idx:idx+chunk_len]` for `idx in range(0, len(obj_list), chunk_len)`. -/
def chunks {α : Type} (obj_list : List α) (chunk_len : Nat) : List (List α) :=
  (List.range ((obj_list.length + chunk_len - 1) / chunk_len)).map
    (fun i => (obj_list.drop (i * chunk_len)).take chunk_len)

/-- The batch loop of `get_image_list`: one `DatalinkResults.from_result_url`
fetch per sublist (logged with the batched URL), then for each `#cutout`
service whose access URL contains `/sync`, keep only the declared `ID` and
`RUNID` parameters, merge in the cutout `POS` circle, and record the URL. -/
def getImageListLoop (net : Net) (data_link_url : String)
    (cutout_params : List (String × String)) :
    List (List String) → List String → PState → Except Err (List String) × PState
  | [], result, st => (.ok result, st)
  | pid_sublist :: rest, result, st =>
    let url := data_link_url ++ "?" ++ urlencodeMulti "ID" pid_sublist
    let st := { st with log := st.log ++ [.datalinkBatch url] }
    match net.datalink url with
    | .error code => (.error (.httpError code), st)
    | .ok defs =>
      let result := (defs.filter (fun d => d.semantics = "#cutout")).foldl
        (fun acc service_def =>
          if containsStr "/sync" service_def.access_url then
            let input_params := (service_def.input_params.filter
                (fun p => p.1 = "ID" ∨ p.1 = "RUNID")).foldl
              (fun d p => dictInsert p.1 p.2 d) []
            let input_params := cutout_params.foldl
              (fun d p => dictInsert p.1 p.2 d) input_params
            acc ++ [service_def.access_url ++ "?" ++ urlencodePairs input_params]
          else acc) result
      getImageListLoop net data_link_url cutout_params rest result st

/-- `CadcClass.get_image_list`: an empty (falsy) result raises
`AttributeError('Missing query_result argument')`; publisher IDs are read
from the `caomPublisherID` column (`AttributeError` when missing) and
processed in batches of 20. -/
def get_image_list (net : Net) (data_link_url : String)
    (query_result : QueryResult) (coordinates : Coord) (radius : String)
    (st : PState) : Except Err (List String) × PState :=
  if query_result.nrows = 0 then
    (.error (.attributeError "Missing query_result argument"), st)
  else
    let cutout_params := [("POS", "CIRCLE " ++ coordinates.ra ++ " " ++
      coordinates.dec ++ " " ++ radius)]
    match query_result.columns.lookup "caomPublisherID" with
    | none => (.error (.attributeError
        "caomPublisherID column missing from query_result argument"), st)
    | some publisher_ids =>
      getImageListLoop net data_link_url cutout_params
        (chunks publisher_ids 20) [] st

/-- The download loop of `get_images` (lines 321-333): the `try` block wraps
the whole `for` loop, so the first `HTTPError` is logged via
`logger.debug` and the loop is abandoned, returning the images collected
so far; each successful `get_fits()` appends its file. -/
def getImagesFetchLoop (net : Net) :
    List String → List String → PState → List String × PState
  | [], images, st => (images, st)
  | url :: rest, images, st =>
    let st := { st with log := st.log ++ [.fileGet url] }
    match net.fileFits url with
    | .error _ => (images, st)
    | .ok fits => getImagesFetchLoop net rest (images ++ [fits]) st

/-- The file-retrieval portion of `CadcClass.get_images`, applied to the
URL list produced by `get_image_list`. -/
def get_images_fetch (net : Net) (images_urls : List String) (st : PState) :
    List String × PState :=
  getImagesFetchLoop net images_urls [] st

/-- Characters that can occur in the decimal rendering of a coordinate or
radius value interpolated into the ADQL statement (digits, sign, decimal
point, exponent marker). -/
def numericChar (c : Char) : Prop := c ∈ "0123456789.+-eE".data

instance (c : Char) : Decidable (numericChar c) :=
  inferInstanceAs (Decidable (c ∈ "0123456789.+-eE".data))

/-! ### Shared concrete fixtures -/

/-- A benign oracle used by the concrete witnesses; individual witnesses
override the fields they exercise. -/
def netBase : Net where
  registry := .ok ""
  capabilities := fun _ => .ok []
  datalink := fun _ => .ok []
  datalinkRows := fun _ => .ok []
  fileFits := fun _ => .ok ""

/-! ### C9: the query builder is pure and deterministic -/

/-- C9: `_args_to_payload` is pure and deterministic: for each input there is
a single payload that every call returns, from any process state, and the
state (in particular the request log) is left unchanged — no I/O. -/
theorem c9_args_to_payload_deterministic_no_io (coordinates : Coord)
    (radius : String) (collection : Option String) :
    ∃ p : Payload, ∀ st : PState,
      args_to_payload coordinates radius collection st = (p, st) :=
  ⟨_, fun _ => rfl⟩

/-! ### C5: `get_data_urls` usage errors precede any request -/

/-- C5: on an empty query result, or one lacking a `publisherID` column,
`get_data_urls` returns an `AttributeError` and the process state is
untouched: no network request was issued. -/
theorem c5_get_data_urls_usage_error_before_requests (net : Net)
    (query_result : QueryResult) (include_auxiliaries : Bool) (st : PState)
    (h : query_result.nrows = 0 ∨
      query_result.columns.lookup "publisherID" = none) :
    (∃ msg, (get_data_urls net query_result include_auxiliaries st).1 =
      .error (.attributeError msg)) ∧
    (get_data_urls net query_result include_auxiliaries st).2 = st := by
  rcases h with h | h
  · refine ⟨⟨"Missing metadata argument", ?_⟩, ?_⟩ <;> simp [get_data_urls, h]
  · by_cases h0 : query_result.nrows = 0
    · refine ⟨⟨"Missing metadata argument", ?_⟩, ?_⟩ <;> simp [get_data_urls, h0]
    · refine ⟨⟨"caomPublisherID column missing from query_result argument", ?_⟩, ?_⟩ <;>
        simp [get_data_urls, h0, h]

/-- Witness for C5 at a concrete non-empty table that has a
`caomPublisherID` column but no `publisherID` column. -/
theorem c5_witness :
    ((QueryResult.mk 2 [("caomPublisherID", ["a", "b"])]).nrows = 0 ∨
      (QueryResult.mk 2 [("caomPublisherID", ["a", "b"])]).columns.lookup
        "publisherID" = none) ∧
    ((∃ msg, (get_data_urls netBase ⟨2, [("caomPublisherID", ["a", "b"])]⟩
        false ⟨[], []⟩).1 = .error (.attributeError msg)) ∧
     (get_data_urls netBase ⟨2, [("caomPublisherID", ["a", "b"])]⟩
        false ⟨[], []⟩).2 = ⟨[], []⟩) :=
  ⟨Or.inr (by decide),
   c5_get_data_urls_usage_error_before_requests netBase _ false ⟨[], []⟩
     (Or.inr (by decide))⟩

/-! ### C4: DataLink row selection in `get_data_urls` -/

/-- The row-selection rule of `get_data_urls` (core.py lines 454-459), one
row at a time: a `#this` (primary) row is kept unconditionally; any other
row is kept exactly when its access URL is non-empty (truthy) and
`include_auxiliaries` is set. -/
def includedRow (include_auxiliaries : Bool) (row : DLRow) : Bool :=
  if row.semantics = "#this" then true
  else if row.access_url ≠ "" ∧ include_auxiliaries = true then true
  else false

/-- The row scan of one DataLink response accumulates exactly the access
URLs of the rows selected by `includedRow`, in row order. -/
theorem getDataUrlsRows_foldl (include_auxiliaries : Bool) :
    ∀ (rows : List DLRow) (acc : List String),
    rows.foldl (fun acc row =>
      if row.semantics = "#this" then acc ++ [row.access_url]
      else if row.access_url ≠ "" ∧ include_auxiliaries = true then
        acc ++ [row.access_url]
      else acc) acc =
    acc ++ (rows.filter (includedRow include_auxiliaries)).map
      (fun row => row.access_url) := by
  intro rows
  induction rows with
  | nil => intro acc; simp
  | cons r rest ih =>
    intro acc
    simp only [List.foldl_cons]
    by_cases h : r.semantics = "#this"
    · rw [if_pos h, ih]
      have hr : includedRow include_auxiliaries r = true := by simp [includedRow, h]
      simp [List.filter_cons, hr, List.append_assoc]
    · by_cases h2 : r.access_url ≠ "" ∧ include_auxiliaries = true
      · rw [if_neg h, if_pos h2, ih]
        have hr : includedRow include_auxiliaries r = true := by
          simp [includedRow, h, h2]
        simp [List.filter_cons, hr, List.append_assoc]
      · rw [if_neg h, if_neg h2, ih]
        have hr : includedRow include_auxiliaries r = false := by
          simp only [includedRow, if_neg h, if_neg h2]
        simp [List.filter_cons, hr]

/-- When every per-ID DataLink request succeeds, the loop of
`get_data_urls` returns the accumulated URLs of the selected rows of every
response, pid by pid, in order. -/
theorem getDataUrlsLoop_ok (net : Net) (include_auxiliaries : Bool)
    (rows : String → List DLRow) :
    ∀ (pids : List String) (acc : List String) (st : PState),
    (∀ pid ∈ pids, net.datalinkRows pid = Except.ok (rows pid)) →
    (getDataUrlsLoop net include_auxiliaries pids acc st).1 =
      .ok (acc ++ pids.flatMap (fun pid =>
        ((rows pid).filter (includedRow include_auxiliaries)).map
          (fun row => row.access_url))) := by
  intro pids
  induction pids with
  | nil => intro acc st _; simp [getDataUrlsLoop]
  | cons pid rest ih =>
    intro acc st hnet
    simp only [getDataUrlsLoop, hnet pid (List.mem_cons_self _ _)]
    rw [getDataUrlsRows_foldl]
    rw [ih _ _ (fun p hp => hnet p (List.mem_cons_of_mem _ hp))]
    simp [List.flatMap_cons, List.append_assoc]

/-- C4: for every DataLink response table (any pid list, any number of rows
per response, in any order), a `#this` row contributes its access URL
regardless of `include_auxiliaries`, and any other row contributes its URL
exactly when its access URL is non-empty and `include_auxiliaries` is true:
the result of `get_data_urls` is the per-row filtered URL list, in order.
In particular, a one-primary/one-auxiliary response yields only the primary
URL with the flag off and both URLs with it on. -/
theorem c4_get_data_urls_auxiliary_filter (net : Net)
    (query_result : QueryResult) (include_auxiliaries : Bool) (st : PState)
    (pids : List String) (rows : String → List DLRow)
    (h0 : ¬ query_result.nrows = 0)
    (h1 : query_result.columns.lookup "publisherID" = some pids)
    (hnet : ∀ pid ∈ pids, net.datalinkRows pid = Except.ok (rows pid)) :
    (∀ row : DLRow, includedRow include_auxiliaries row = true ↔
      (row.semantics = "#this" ∨
        (¬ row.access_url = "" ∧ include_auxiliaries = true))) ∧
    (get_data_urls net query_result include_auxiliaries st).1 =
      .ok (pids.flatMap (fun pid =>
        ((rows pid).filter (includedRow include_auxiliaries)).map
          (fun row => row.access_url))) := by
  constructor
  · intro row
    by_cases h : row.semantics = "#this"
    · simp [includedRow, h]
    · by_cases h2 : row.access_url ≠ "" ∧ include_auxiliaries = true
      · simp [includedRow, h, h2]
      · simp only [includedRow, if_neg h, if_neg h2]
        simp only [ne_eq] at h2
        simp [h, h2]
  · simp only [get_data_urls, h0, if_false, h1]
    have := getDataUrlsLoop_ok net include_auxiliaries rows pids [] st hnet
    rw [this]
    simp

/-- DataLink rows of the C4 witness: an auxiliary row with an empty access
URL, then the primary row, then an auxiliary preview row — exercising row
order, the primary rule and the empty-URL exclusion at once. -/
def c4rows : List DLRow :=
  [⟨"#preview", ""⟩,
   ⟨"#this", "https://cadc/data/f1"⟩,
   ⟨"#preview", "https://cadc/prev/f1"⟩]

/-- Oracle of the C4 witness: every per-ID DataLink request answers with
`c4rows`. -/
def c4net : Net := { netBase with datalinkRows := fun _ => Except.ok c4rows }

/-- Witness for C4 at concrete rows: without the flag only the primary URL
is returned; with it the non-empty auxiliary URL joins, while the empty-URL
auxiliary row is dropped in both cases. -/
theorem c4_witness :
    (¬ (QueryResult.mk 1 [("publisherID", ["p1"])]).nrows = 0 ∧
     (QueryResult.mk 1 [("publisherID", ["p1"])]).columns.lookup "publisherID" =
       some ["p1"] ∧
     (∀ pid ∈ ["p1"], c4net.datalinkRows pid = Except.ok c4rows)) ∧
    ((get_data_urls c4net ⟨1, [("publisherID", ["p1"])]⟩ false ⟨[], []⟩).1 =
       .ok ["https://cadc/data/f1"] ∧
     (get_data_urls c4net ⟨1, [("publisherID", ["p1"])]⟩ true ⟨[], []⟩).1 =
       .ok ["https://cadc/data/f1", "https://cadc/prev/f1"]) :=
  ⟨⟨by decide, rfl, fun _ _ => rfl⟩,
   (c4_get_data_urls_auxiliary_filter c4net ⟨1, [("publisherID", ["p1"])]⟩
      false ⟨[], []⟩ ["p1"] (fun _ => c4rows) (by decide) rfl (fun _ _ => rfl)).2,
   (c4_get_data_urls_auxiliary_filter c4net ⟨1, [("publisherID", ["p1"])]⟩
      true ⟨[], []⟩ ["p1"] (fun _ => c4rows) (by decide) rfl (fun _ _ => rfl)).2⟩

/-! ### C2: the `get_images` download loop aborts on the first HTTP error -/

/-- The network of the C2 counterexample: the second file URL fails with an
HTTP error while the first and third succeed. -/
def c2net : Net :=
  { netBase with fileFits := fun u =>
      if u = "u1" then .ok "f1" else if u = "u3" then .ok "f3" else .error 404 }

/-- Counterexample to C2 as stated: with three image URLs whose second
retrieval fails, the third file would be served successfully, yet it is
neither requested nor present in the returned list — the loop stops at the
failure instead of skipping it and continuing. -/
theorem c2_counterexample :
    c2net.fileFits "u3" = .ok "f3" ∧
    (get_images_fetch c2net ["u1", "u2", "u3"] ⟨[], []⟩).1 = ["f1"] ∧
    "f3" ∉ (get_images_fetch c2net ["u1", "u2", "u3"] ⟨[], []⟩).1 ∧
    (get_images_fetch c2net ["u1", "u2", "u3"] ⟨[], []⟩).2.log =
      [.fileGet "u1", .fileGet "u2"] := by
  refine ⟨rfl, rfl, by decide, rfl⟩

/-- Spec-side description of the amended C2: the files returned are those of
the longest prefix of URLs whose retrievals succeed (the first failure ends
the download). -/
def fetchUntilError (net : Net) : List String → List String
  | [] => []
  | url :: rest =>
    match net.fileFits url with
    | .error _ => []
    | .ok fits => fits :: fetchUntilError net rest

/-- Spec-side description of the amended C2: the URLs actually requested are
the successful prefix plus the first failing URL (nothing after it). -/
def attemptedUrls (net : Net) : List String → List String
  | [] => []
  | url :: rest =>
    match net.fileFits url with
    | .error _ => [url]
    | .ok _ => url :: attemptedUrls net rest

/-- Unfolding of the download loop of `get_images` against the amended
description, for any starting accumulator and state. -/
theorem getImagesFetchLoop_spec (net : Net) :
    ∀ (urls images : List String) (st : PState),
    getImagesFetchLoop net urls images st =
      (images ++ fetchUntilError net urls,
       { st with log := st.log ++ (attemptedUrls net urls).map Request.fileGet }) := by
  intro urls
  induction urls with
  | nil => intro images st; simp [getImagesFetchLoop, fetchUntilError, attemptedUrls]
  | cons url rest ih =>
    intro images st
    simp only [getImagesFetchLoop, fetchUntilError, attemptedUrls]
    cases h : net.fileFits url with
    | error code => simp [h]
    | ok fits => simp [h, ih, List.append_assoc]

/-- C2 amended: an HTTP failure while retrieving a file is suppressed (after
logging) and the files already retrieved are returned, but the download
stops there — the file URLs after the first failure are neither requested
nor included; when no retrieval fails every file appears, in order. -/
theorem c2_amended_download_stops_at_first_failure (net : Net)
    (images_urls : List String) (st : PState) :
    (get_images_fetch net images_urls st).1 = fetchUntilError net images_urls ∧
    (get_images_fetch net images_urls st).2 =
      { st with log := st.log ++ (attemptedUrls net images_urls).map Request.fileGet } := by
  simp [get_images_fetch, getImagesFetchLoop_spec]

/-! ### C3: `get_image_list` batches publisher IDs in groups of 20 -/

/-- The requests issued by the batch loop of `get_image_list`: one batched
DataLink URL per sublist of publisher IDs. -/
def batchRequests (data_link_url : String) (subs : List (List String)) : List Request :=
  subs.map (fun sub => Request.datalinkBatch (data_link_url ++ "?" ++ urlencodeMulti "ID" sub))

/-- When every batched DataLink fetch succeeds, the batch loop of
`get_image_list` succeeds and logs exactly one batched request per sublist,
in order. -/
theorem getImageListLoop_log (net : Net) (data_link_url : String)
    (cutout_params : List (String × String))
    (hnet : ∀ url, ∃ defs, net.datalink url = Except.ok defs) :
    ∀ (subs : List (List String)) (result : List String) (st : PState),
    ∃ r, getImageListLoop net data_link_url cutout_params subs result st =
      (.ok r, { st with log := st.log ++ batchRequests data_link_url subs }) := by
  intro subs
  induction subs with
  | nil => intro result st; exact ⟨result, by simp [getImageListLoop, batchRequests]⟩
  | cons sub rest ih =>
    intro result st
    obtain ⟨defs, hd⟩ := hnet (data_link_url ++ "?" ++ urlencodeMulti "ID" sub)
    simp only [getImageListLoop, hd]
    obtain ⟨r, hr⟩ :=
      ih ((defs.filter (fun d => d.semantics = "#cutout")).foldl _ result)
        { st with log := st.log ++ [Request.datalinkBatch (data_link_url ++ "?" ++ urlencodeMulti "ID" sub)] }
    exact ⟨r, by rw [hr]; simp [batchRequests]⟩

/-- C3: for a query result with 45 publisher IDs, `get_image_list` issues
exactly 3 batched DataLink requests — one per consecutive batch, of sizes
20, 20 and 5, the batches concatenating back to the input in order. -/
theorem c3_get_image_list_batches_of_20 (net : Net) (data_link_url : String)
    (query_result : QueryResult) (coordinates : Coord) (radius : String)
    (st : PState) (pids : List String)
    (h0 : ¬ query_result.nrows = 0)
    (h2 : query_result.columns.lookup "caomPublisherID" = some pids)
    (hlen : pids.length = 45)
    (hnet : ∀ url, ∃ defs, net.datalink url = Except.ok defs) :
    (chunks pids 20).map List.length = [20, 20, 5] ∧
    (chunks pids 20).flatten = pids ∧
    ∃ r, get_image_list net data_link_url query_result coordinates radius st =
      (.ok r, { st with log := st.log ++ batchRequests data_link_url (chunks pids 20) }) := by
  have hch : chunks pids 20 =
      [pids.take 20, (pids.drop 20).take 20, (pids.drop 40).take 20] := by
    simp [chunks, hlen, List.range_succ]
  refine ⟨?_, ?_, ?_⟩
  · rw [hch]
    simp [List.length_take, List.length_drop, hlen]
  · rw [hch]
    have h45 : (pids.drop 40).take 20 = (pids.drop 20).drop 20 := by
      rw [List.take_of_length_le (by simp [hlen]), List.drop_drop]
    simp only [List.flatten_cons, List.flatten_nil, List.append_nil, h45]
    rw [List.take_append_drop, List.take_append_drop]
  · simp only [get_image_list, h0, if_false, h2]
    exact getImageListLoop_log net data_link_url _ hnet (chunks pids 20) [] st

/-- Concrete list of 45 publisher IDs for the C3 witness. -/
def pids45 : List String := (List.range 45).map (fun n => toString n)

/-- Concrete query result of the C3 witness. -/
def qr45 : QueryResult := ⟨45, [("caomPublisherID", pids45)]⟩

/-- Witness for C3: a concrete 45-row result is resolved through exactly 3
batched DataLink requests of sizes 20, 20 and 5. -/
theorem c3_witness :
    (¬ qr45.nrows = 0 ∧
     qr45.columns.lookup "caomPublisherID" = some pids45 ∧
     pids45.length = 45) ∧
    ((chunks pids45 20).map List.length = [20, 20, 5] ∧
     (chunks pids45 20).flatten = pids45 ∧
     ∃ r, get_image_list netBase "https://dl" qr45 ⟨"10.0", "20.0"⟩ "0.1" ⟨[], []⟩ =
       (.ok r, { (⟨[], []⟩ : PState) with
         log := (⟨[], []⟩ : PState).log ++ batchRequests "https://dl" (chunks pids45 20) })) :=
  ⟨⟨by decide, rfl, by simp [pids45]⟩,
   c3_get_image_list_batches_of_20 netBase "https://dl" qr45 ⟨"10.0", "20.0"⟩ "0.1"
     ⟨[], []⟩ pids45 (by decide) rfl (by simp [pids45]) (fun url => ⟨[], rfl⟩)⟩

/-! ### C10: column-name asymmetry between the two DataLink resolvers -/

/-- The batch loop of `get_image_list` never raises an `AttributeError`:
it either succeeds or propagates an HTTP error. -/
theorem getImageListLoop_no_attribute_error (net : Net) (data_link_url : String)
    (cutout_params : List (String × String)) :
    ∀ (subs : List (List String)) (result : List String) (st : PState) (msg : String),
    (getImageListLoop net data_link_url cutout_params subs result st).1 ≠
      .error (.attributeError msg) := by
  intro subs
  induction subs with
  | nil => intro result st msg; simp [getImageListLoop]
  | cons sub rest ih =>
    intro result st msg
    simp only [getImageListLoop]
    cases hd : net.datalink (data_link_url ++ "?" ++ urlencodeMulti "ID" sub) with
    | error code => simp
    | ok defs => exact ih _ _ _

/-- C10: on a non-empty result that has a `caomPublisherID` column but no
`publisherID` column, `get_data_urls` raises the missing-column
`AttributeError` (whose message nevertheless names `caomPublisherID`),
while `get_image_list` does not raise any `AttributeError`. -/
theorem c10_column_name_asymmetry (net : Net) (data_link_url : String)
    (query_result : QueryResult) (coordinates : Coord) (radius : String)
    (include_auxiliaries : Bool) (st st' : PState) (pids : List String)
    (h0 : ¬ query_result.nrows = 0)
    (h1 : query_result.columns.lookup "publisherID" = none)
    (h2 : query_result.columns.lookup "caomPublisherID" = some pids) :
    (get_data_urls net query_result include_auxiliaries st).1 =
      .error (.attributeError "caomPublisherID column missing from query_result argument") ∧
    ∀ msg, (get_image_list net data_link_url query_result coordinates radius st').1 ≠
      .error (.attributeError msg) := by
  constructor
  · simp [get_data_urls, h0, h1]
  · intro msg
    simp only [get_image_list, h0, if_false, h2]
    exact getImageListLoop_no_attribute_error net data_link_url _ _ _ _ _

/-- Concrete query result of the C10 witness: two rows, a `caomPublisherID`
column, and no `publisherID` column. -/
def qr10 : QueryResult := ⟨2, [("caomPublisherID", ["id1", "id2"])]⟩

/-- Witness for C10 at a concrete table. -/
theorem c10_witness :
    (¬ qr10.nrows = 0 ∧
     qr10.columns.lookup "publisherID" = none ∧
     qr10.columns.lookup "caomPublisherID" = some ["id1", "id2"]) ∧
    ((get_data_urls netBase qr10 false ⟨[], []⟩).1 =
      .error (.attributeError "caomPublisherID column missing from query_result argument") ∧
     ∀ msg, (get_image_list netBase "https://dl" qr10 ⟨"10.0", "20.0"⟩ "0.1" ⟨[], []⟩).1 ≠
      .error (.attributeError msg)) :=
  ⟨⟨by decide, by decide, rfl⟩,
   c10_column_name_asymmetry netBase "https://dl" qr10 ⟨"10.0", "20.0"⟩ "0.1" false
     ⟨[], []⟩ ⟨[], []⟩ ["id1", "id2"] (by decide) (by decide) rfl⟩

/-! ### C6: a unique interface for the standard ID always resolves -/

/-- When the interfaces of the capabilities matching the requested standard
identifier flatten to exactly one interface, the capability loop returns
that interface's access URL, whatever its security method. -/
theorem selectAccessUrl_of_single_interface (capability : String) (i : Interface) :
    ∀ doc : CapsDoc,
    (doc.filter (fun cap => cap.standardid = some capability)).flatMap
      Capability.interfaces = [i] →
    selectAccessUrl doc capability = some i.accessurl := by
  intro doc
  induction doc with
  | nil => intro h; simp at h
  | cons cap rest ih =>
    intro h
    by_cases hm : cap.standardid = some capability
    · rw [List.filter_cons_of_pos (by simp [hm])] at h
      rw [List.flatMap_cons] at h
      cases hi : cap.interfaces with
      | nil =>
        rw [hi] at h
        simp only [List.nil_append] at h
        simp only [selectAccessUrl, hm, if_pos, capabilityAccessUrl, hi,
          List.find?_nil, Option.map_none]
        exact ih h
      | cons a tl =>
        cases tl with
        | nil =>
          rw [hi] at h
          simp only [List.singleton_append, List.cons.injEq] at h
          simp [selectAccessUrl, hm, capabilityAccessUrl, hi, h.1]
        | cons b tl' =>
          exfalso
          rw [hi] at h
          have hlen := congrArg List.length h
          simp [List.length_append] at hlen
    · rw [List.filter_cons_of_neg (by simp [hm])] at h
      simp only [selectAccessUrl, hm, if_false]
      exact ih h

/-- C6: when the capabilities document served for a caps URL has exactly one
interface under the requested standard identifier, `get_access_url` returns
that interface's access URL, regardless of its declared security method. -/
theorem c6_single_interface_resolves (net : Net) (caps_url : String)
    (capability : String) (doc : CapsDoc) (i : Interface) (st : PState)
    (hurl : pyStartsWith caps_url "http" = true)
    (hnet : net.capabilities caps_url = .ok doc)
    (hdoc : (doc.filter (fun cap => cap.standardid = some capability)).flatMap
      Capability.interfaces = [i]) :
    (get_access_url net caps_url (some capability) st).1 = .ok i.accessurl := by
  simp [get_access_url, hurl, resolveFromCapsUrl, hnet,
    selectAccessUrl_of_single_interface capability i doc hdoc]

/-- Capabilities document of the C6 witness: a single capability for the
requested standard ID whose only interface declares a non-anonymous,
non-cookie security method. -/
def c6doc : CapsDoc :=
  [⟨some "ivo://ivoa.net/std/TAP",
    [⟨some ⟨some "ivo://ivoa.net/sso#tls-with-certificate"⟩, "https://cadc/tap"⟩]⟩]

/-- Oracle of the C6 witness. -/
def c6net : Net := { netBase with capabilities := fun _ => Except.ok c6doc }

/-- Witness for C6: the lone interface is returned even though its security
method is neither absent, anonymous nor cookie-based. -/
theorem c6_witness :
    (pyStartsWith "https://caps.example/capabilities" "http" = true ∧
     c6net.capabilities "https://caps.example/capabilities" = .ok c6doc ∧
     (c6doc.filter (fun cap => cap.standardid = some "ivo://ivoa.net/std/TAP")).flatMap
       Capability.interfaces =
       [⟨some ⟨some "ivo://ivoa.net/sso#tls-with-certificate"⟩, "https://cadc/tap"⟩]) ∧
    (get_access_url c6net "https://caps.example/capabilities"
      (some "ivo://ivoa.net/std/TAP") ⟨[], []⟩).1 = .ok "https://cadc/tap" :=
  ⟨⟨by decide, rfl, by decide⟩,
   c6_single_interface_resolves c6net "https://caps.example/capabilities"
     "ivo://ivoa.net/std/TAP" c6doc
     ⟨some ⟨some "ivo://ivoa.net/sso#tls-with-certificate"⟩, "https://cadc/tap"⟩
     ⟨[], []⟩ (by decide) rfl (by decide)⟩

/-! ### C7: multiple unacceptable interfaces raise a resolution error -/

/-- When every capability matching the requested standard identifier has two
or more interfaces, none of them acceptable (no security method, or the
anonymous-cookie method), the capability loop finds nothing. -/
theorem selectAccessUrl_of_no_acceptable (capability : String) :
    ∀ doc : CapsDoc,
    (∀ cap ∈ doc, cap.standardid = some capability →
      2 ≤ cap.interfaces.length ∧
      ∀ i ∈ cap.interfaces, acceptableInterface i = false) →
    selectAccessUrl doc capability = none := by
  intro doc
  induction doc with
  | nil => intro _; simp [selectAccessUrl]
  | cons cap rest ih =>
    intro h
    have hrest := ih (fun c hc => h c (List.mem_cons_of_mem _ hc))
    by_cases hm : cap.standardid = some capability
    · obtain ⟨hlen, hacc⟩ := h cap (List.mem_cons_self _ _) hm
      have hfind : cap.interfaces.find? acceptableInterface = none :=
        List.find?_eq_none.mpr (fun i hi => by simp [hacc i hi])
      cases hi : cap.interfaces with
      | nil => rw [hi] at hlen; simp at hlen
      | cons a tl =>
        cases tl with
        | nil => rw [hi] at hlen; simp at hlen
        | cons b tl' =>
          rw [hi] at hfind
          simp only [selectAccessUrl, hm, if_pos, capabilityAccessUrl, hi,
            hfind, Option.map_none]
          exact hrest
    · simp only [selectAccessUrl, hm, if_false]
      exact hrest

/-- C7: when the capabilities document served for a caps URL has, for the
requested standard identifier, only capabilities with several interfaces
none of which is anonymous/cookie-accessible, `get_access_url` raises the
`RuntimeError` of the final fall-through. -/
theorem c7_no_acceptable_interface_errors (net : Net) (caps_url : String)
    (capability : String) (doc : CapsDoc) (st : PState)
    (hurl : pyStartsWith caps_url "http" = true)
    (hnet : net.capabilities caps_url = .ok doc)
    (hdoc : ∀ cap ∈ doc, cap.standardid = some capability →
      2 ≤ cap.interfaces.length ∧
      ∀ i ∈ cap.interfaces, acceptableInterface i = false) :
    (get_access_url net caps_url (some capability) st).1 =
      .error (.runtimeError ("ERROR - capabilitiy " ++ capability ++
        " not found or not working with anonymous or cookie access")) := by
  simp [get_access_url, hurl, resolveFromCapsUrl, hnet,
    selectAccessUrl_of_no_acceptable capability doc hdoc]

/-- Capabilities document of the C7 witness: one capability for the
requested standard ID with two interfaces, both requiring non-anonymous,
non-cookie security methods. -/
def c7doc : CapsDoc :=
  [⟨some "ivo://ivoa.net/std/TAP",
    [⟨some ⟨some "ivo://ivoa.net/sso#BasicAA"⟩, "https://cadc/tap-basic"⟩,
     ⟨some ⟨some "ivo://ivoa.net/sso#tls-with-certificate"⟩, "https://cadc/tap-cert"⟩]⟩]

/-- Oracle of the C7 witness. -/
def c7net : Net := { netBase with capabilities := fun _ => Except.ok c7doc }

/-- Witness for C7 at a concrete two-interface capability. -/
theorem c7_witness :
    (pyStartsWith "https://caps.example/capabilities" "http" = true ∧
     c7net.capabilities "https://caps.example/capabilities" = .ok c7doc ∧
     ∀ cap ∈ c7doc, cap.standardid = some "ivo://ivoa.net/std/TAP" →
       2 ≤ cap.interfaces.length ∧
       ∀ i ∈ cap.interfaces, acceptableInterface i = false) ∧
    (get_access_url c7net "https://caps.example/capabilities"
      (some "ivo://ivoa.net/std/TAP") ⟨[], []⟩).1 =
      .error (.runtimeError ("ERROR - capabilitiy ivo://ivoa.net/std/TAP" ++
        " not found or not working with anonymous or cookie access")) :=
  ⟨⟨by decide, rfl, by decide⟩,
   c7_no_acceptable_interface_errors c7net "https://caps.example/capabilities"
     "ivo://ivoa.net/std/TAP" c7doc ⟨[], []⟩ (by decide) rfl (by decide)⟩

/-! ### C8: registry cache lifecycle -/

/-- Request counting distributes over log concatenation. -/
theorem countRegistry_append (l l' : List Request) :
    countRegistry (l ++ l') = countRegistry l + countRegistry l' := by
  simp [countRegistry, List.filter_append]

/-- Capability resolution never touches the cache and never fetches the
registry (it only logs a capabilities-document request). -/
theorem resolveFromCapsUrl_state (net : Net) (u c : String) (st : PState) :
    (resolveFromCapsUrl net u c st).2.caps = st.caps ∧
    countRegistry (resolveFromCapsUrl net u c st).2.log = countRegistry st.log := by
  unfold resolveFromCapsUrl
  cases hcap : net.capabilities u with
  | error code => simp [countRegistry_append, countRegistry, isRegistryReq]
  | ok doc =>
    cases hsel : selectAccessUrl doc c with
    | none => simp [hsel, countRegistry_append, countRegistry, isRegistryReq]
    | some v => simp [hsel, countRegistry_append, countRegistry, isRegistryReq]

/-- A `get_access_url` call made while the cache is non-empty leaves the
cache unchanged and fetches the registry zero times. -/
theorem get_access_url_nonempty_cache (net : Net) (service : String)
    (capability : Option String) (st : PState) (h : ¬ st.caps = []) :
    (get_access_url net service capability st).2.caps = st.caps ∧
    countRegistry (get_access_url net service capability st).2.log =
      countRegistry st.log := by
  have hempty : st.caps.isEmpty = false := by
    cases hc : st.caps with
    | nil => exact absurd hc h
    | cons a t => simp
  unfold get_access_url
  by_cases hs : pyStartsWith service "http" = true
  · simp only [hs, if_true]
    cases capability with
    | none => exact ⟨rfl, rfl⟩
    | some c => exact resolveFromCapsUrl_state net service c st
  · simp only [Bool.not_eq_true] at hs
    simp only [hs, Bool.false_eq_true, if_false, hempty]
    cases hl : st.caps.lookup (if pyStartsWith service "ivo" then service
        else "ivo://cadc.nrc.ca/" ++ service) with
    | none => simp [hl]
    | some caps_url =>
      simp only [hl]
      cases capability with
      | none => exact ⟨rfl, rfl⟩
      | some c => exact resolveFromCapsUrl_state net caps_url c st

/-- The cache-stability of a single call extends to any sequence of calls. -/
theorem runCalls_nonempty_cache (net : Net) :
    ∀ (calls : List (String × Option String)) (st : PState), ¬ st.caps = [] →
    (runCalls net calls st).caps = st.caps ∧
    countRegistry (runCalls net calls st).log = countRegistry st.log := by
  intro calls
  induction calls with
  | nil => intro st _; exact ⟨rfl, rfl⟩
  | cons call rest ih =>
    intro st h
    obtain ⟨service, capability⟩ := call
    have h1 := get_access_url_nonempty_cache net service capability st h
    have h2 := ih (get_access_url net service capability st).2 (by rw [h1.1]; exact h)
    simp only [runCalls]
    exact ⟨h2.1.trans h1.1, h2.2.trans h1.2⟩

/-- A `get_access_url` call made with an empty cache and a non-URL service
fetches the registry exactly once and leaves the cache holding exactly what
the feed parses to. -/
theorem get_access_url_empty_nonhttp (net : Net) (text : String)
    (hreg : net.registry = Except.ok text) (service : String)
    (capability : Option String) (st : PState) (hc : st.caps = [])
    (hs : ¬ pyStartsWith service "http" = true) :
    (get_access_url net service capability st).2.caps =
      (parseRegistryLines (pySplitLines text) []).1 ∧
    countRegistry (get_access_url net service capability st).2.log =
      countRegistry st.log + 1 := by
  have hempty : st.caps.isEmpty = true := by simp [hc]
  simp only [Bool.not_eq_true] at hs
  unfold get_access_url
  simp only [hs, Bool.false_eq_true, if_false, hempty, if_true, hreg, hc,
    List.isEmpty_nil]
  rcases hp : parseRegistryLines (pySplitLines text) [] with ⟨caps', err?⟩
  simp only [hp]
  cases err? with
  | some e => simp [countRegistry_append, countRegistry, isRegistryReq]
  | none =>
    cases hl : caps'.lookup (if pyStartsWith service "ivo" then service
        else "ivo://cadc.nrc.ca/" ++ service) with
    | none => simp [hl, countRegistry_append, countRegistry, isRegistryReq]
    | some caps_url =>
      simp only [hl]
      cases capability with
      | none => simp [countRegistry_append, countRegistry, isRegistryReq]
      | some c =>
        have hr := resolveFromCapsUrl_state net caps_url c
          { st with caps := caps', log := st.log ++ [Request.registry] }
        refine ⟨hr.1.trans rfl, hr.2.trans ?_⟩
        simp [countRegistry_append, countRegistry, isRegistryReq]

/-- The cache/fetch-count invariant maintained across calls: either the
cache is still empty and no fetch has happened, or the cache is non-empty
and at most one fetch has happened. -/
def regInv (st : PState) : Prop :=
  (st.caps = [] ∧ countRegistry st.log = 0) ∨
  (¬ st.caps = [] ∧ countRegistry st.log ≤ 1)

/-- One call preserves `regInv` when the registry feed parses to a
non-empty mapping. -/
theorem get_access_url_regInv (net : Net) (text : String)
    (hreg : net.registry = Except.ok text)
    (hne : ¬ (parseRegistryLines (pySplitLines text) []).1 = [])
    (service : String) (capability : Option String) (st : PState)
    (h : regInv st) : regInv (get_access_url net service capability st).2 := by
  rcases h with ⟨hc, hl⟩ | ⟨hc, hl⟩
  · by_cases hs : pyStartsWith service "http" = true
    · have : (get_access_url net service capability st).2.caps = st.caps ∧
          countRegistry (get_access_url net service capability st).2.log =
            countRegistry st.log := by
        unfold get_access_url
        simp only [hs, if_true]
        cases capability with
        | none => exact ⟨rfl, rfl⟩
        | some c => exact resolveFromCapsUrl_state net service c st
      exact Or.inl ⟨this.1.trans hc, this.2.trans hl⟩
    · have := get_access_url_empty_nonhttp net text hreg service capability st hc hs
      exact Or.inr ⟨by rw [this.1]; exact hne, by rw [this.2, hl]⟩
  · have := get_access_url_nonempty_cache net service capability st hc
    exact Or.inr ⟨by rw [this.1]; exact hc, by rw [this.2]; exact hl⟩

/-- The invariant holds after any sequence of calls. -/
theorem runCalls_regInv (net : Net) (text : String)
    (hreg : net.registry = Except.ok text)
    (hne : ¬ (parseRegistryLines (pySplitLines text) []).1 = []) :
    ∀ (calls : List (String × Option String)) (st : PState),
    regInv st → regInv (runCalls net calls st) := by
  intro calls
  induction calls with
  | nil => intro st h; exact h
  | cons call rest ih =>
    intro st h
    obtain ⟨service, capability⟩ := call
    simp only [runCalls]
    exact ih _ (get_access_url_regInv net text hreg hne service capability st h)

/-- Counterexample to C8 as stated: when the registry feed yields no
entry (here: an empty response body), the cache stays empty and every
non-URL call fetches the feed again — two calls make two fetches,
contradicting "fetched at most once per process". -/
theorem c8_counterexample :
    countRegistry (runCalls netBase [("tap", none), ("tap", none)] ⟨[], []⟩).log = 2 ∧
    ¬ countRegistry (runCalls netBase [("tap", none), ("tap", none)] ⟨[], []⟩).log ≤ 1 := by
  exact ⟨by decide, by decide⟩

/-- C8 amended: the registry feed is fetched only while the cache is empty.
Once the cache is non-empty it is never modified or invalidated and no
further fetch happens, however many calls are made; consequently, whenever
the feed parses to at least one entry, it is fetched at most once per
process. -/
theorem c8_amended_registry_fetch_while_cache_empty :
    (∀ (net : Net) (calls : List (String × Option String)) (st : PState),
      ¬ st.caps = [] →
      (runCalls net calls st).caps = st.caps ∧
      countRegistry (runCalls net calls st).log = countRegistry st.log) ∧
    (∀ (net : Net) (text : String) (calls : List (String × Option String)),
      net.registry = Except.ok text →
      ¬ (parseRegistryLines (pySplitLines text) []).1 = [] →
      countRegistry (runCalls net calls ⟨[], []⟩).log ≤ 1) := by
  constructor
  · exact runCalls_nonempty_cache
  · intro net text calls hreg hne
    have h0 : regInv ⟨[], []⟩ := Or.inl ⟨rfl, rfl⟩
    rcases runCalls_regInv net text hreg hne calls ⟨[], []⟩ h0 with ⟨_, h⟩ | ⟨_, h⟩
    · omega
    · exact h

/-- Oracle of the C8 witness: a registry feed with one `key = value` line. -/
def c8netW : Net := { netBase with registry := Except.ok "tap = https://cadc/caps" }

/-- Witness for C8 amended, at a concrete populated cache (part one) and a
concrete single-entry registry feed (part two). -/
theorem c8_witness :
    (¬ (⟨[("k", "v")], []⟩ : PState).caps = [] ∧
     ((runCalls netBase [("tap", none)] ⟨[("k", "v")], []⟩).caps =
        (⟨[("k", "v")], []⟩ : PState).caps ∧
      countRegistry (runCalls netBase [("tap", none)] ⟨[("k", "v")], []⟩).log =
        countRegistry (⟨[("k", "v")], []⟩ : PState).log)) ∧
    (c8netW.registry = Except.ok "tap = https://cadc/caps" ∧
     ¬ (parseRegistryLines (pySplitLines "tap = https://cadc/caps") []).1 = [] ∧
     countRegistry (runCalls c8netW [("tap", none), ("tap", none)] ⟨[], []⟩).log ≤ 1) :=
  ⟨⟨by decide,
    c8_amended_registry_fetch_while_cache_empty.1 netBase [("tap", none)]
      ⟨[("k", "v")], []⟩ (by decide)⟩,
   ⟨rfl, by decide,
    c8_amended_registry_fetch_while_cache_empty.2 c8netW "tap = https://cadc/caps"
      [("tap", none), ("tap", none)] rfl (by decide)⟩⟩

/-! ### C1: markers of the generated ADQL -/

/-- Character data of a concatenation. -/
theorem sdata (s t : String) : (s ++ t).data = s.data ++ t.data := rfl

/-- The last element of a list is a member of it. -/
theorem memOfGetLastEq {α : Type} : ∀ {l : List α} {a : α},
    l.getLast? = some a → a ∈ l
  | [], _, h => by simp at h
  | [b], a, h => by
    simp only [List.getLast?_singleton, Option.some.injEq] at h
    simp [h]
  | _ :: c :: t, _, h => by
    rw [List.getLast?_cons_cons] at h
    exact List.mem_cons_of_mem _ (memOfGetLastEq h)

/-- A two-element pattern occurring in a concatenation occurs in the left
part, in the right part, or straddles the seam. -/
theorem pairInfixSplit {α : Type} {x y : α} {l₁ l₂ : List α}
    (h : [x, y] <:+: l₁ ++ l₂) :
    [x, y] <:+: l₁ ∨ [x, y] <:+: l₂ ∨
      (l₁.getLast? = some x ∧ l₂.head? = some y) := by
  obtain ⟨u, v, huv⟩ := h
  have h2 : l₁ ++ l₂ = u ++ (x :: y :: v) := by
    rw [← huv, List.append_assoc]; rfl
  rcases List.append_eq_append_iff.mp h2 with ⟨a', _, hb⟩ | ⟨c', hl₁, hd⟩
  · exact Or.inr (Or.inl ⟨a', v, by rw [hb]; simp⟩)
  · match c', hd with
    | [], hd =>
      rw [List.nil_append] at hd
      exact Or.inr (Or.inl ⟨[], v, by simp [hd]⟩)
    | [z], hd =>
      simp only [List.cons_append, List.nil_append, List.cons.injEq] at hd
      refine Or.inr (Or.inr ⟨?_, ?_⟩)
      · rw [hl₁, hd.1, List.getLast?_concat]
      · rw [← hd.2]
        rfl
    | z₁ :: z₂ :: c'', hd =>
      simp only [List.cons_append, List.cons.injEq] at hd
      refine Or.inl ⟨u, c'', ?_⟩
      rw [hl₁, hd.1, hd.2.1]
      simp

/-- Grouped character data of the base ADQL statement, literal head and
tail gathered around the three interpolated values. -/
theorem adqlBase_grouped (ra dec radius : String) :
    (adqlBase ra dec radius).data =
      (adqlP1 ++ adqlP2 ++ adqlP3 ++ adqlP4).data ++ (ra.data ++ (", ".data ++
        (dec.data ++ (", ".data ++ (radius.data ++ (adqlP5 ++ adqlP6).data))))) := by
  simp [adqlBase, sdata, List.append_assoc]

set_option maxRecDepth 4000 in
/-- The collection-filter marker cannot occur in the base statement when
the interpolated values are numeric renderings: the marker contains a
double letter `l`, and the base statement never does. -/
theorem no_double_l_adqlBase (ra dec radius : String)
    (hra : ∀ c ∈ ra.data, numericChar c) (hdec : ∀ c ∈ dec.data, numericChar c)
    (hrad : ∀ c ∈ radius.data, numericChar c) :
    ¬ (['l', 'l'] <:+: (adqlBase ra dec radius).data) := by
  rw [adqlBase_grouped]
  intro h
  have hnum : ¬ numericChar 'l' := by decide
  rcases pairInfixSplit h with h | h | ⟨hL, _⟩
  · exact absurd h (by decide)
  · rcases pairInfixSplit h with h | h | ⟨hL, _⟩
    · exact hnum (hra 'l' (h.subset (by simp)))
    · rcases pairInfixSplit h with h | h | ⟨hL, _⟩
      · exact absurd h (by decide)
      · rcases pairInfixSplit h with h | h | ⟨hL, _⟩
        · exact hnum (hdec 'l' (h.subset (by simp)))
        · rcases pairInfixSplit h with h | h | ⟨hL, _⟩
          · exact absurd h (by decide)
          · rcases pairInfixSplit h with h | h | ⟨hL, _⟩
            · exact hnum (hrad 'l' (h.subset (by simp)))
            · exact absurd h (by decide)
            · exact hnum (hrad 'l' (memOfGetLastEq hL))
          · exact absurd hL (by decide)
        · exact hnum (hdec 'l' (memOfGetLastEq hL))
      · exact absurd hL (by decide)
    · exact hnum (hra 'l' (memOfGetLastEq hL))
  · exact absurd hL (by decide)

/-- The suffix `_args_to_payload` appends after the base statement: the
collection filter when a truthy collection was supplied, nothing otherwise. -/
def collectionSuffix : Option String → String
  | some c => if ¬ c = "" then " AND collection='" ++ c ++ "'" else ""
  | none => ""

/-- The query of `_args_to_payload` is the base statement followed by the
collection suffix. -/
theorem args_to_payload_query_eq (ra dec radius : String) (collection : Option String) :
    (args_to_payload_query ra dec radius collection).data =
      (adqlBase ra dec radius).data ++ (collectionSuffix collection).data := by
  cases collection with
  | none => simp [args_to_payload_query, collectionSuffix, sdata]
  | some c =>
    by_cases hc : c = ""
    · simp [args_to_payload_query, collectionSuffix, hc, sdata]
    · simp [args_to_payload_query, collectionSuffix, hc, sdata, List.append_assoc]

/-- Without a collection argument the query is exactly the base statement. -/
theorem args_to_payload_query_eq_none (ra dec radius : String) :
    (args_to_payload_query ra dec radius none).data = (adqlBase ra dec radius).data :=
  rfl

/-- With an empty (falsy) collection argument the query is exactly the base
statement. -/
theorem args_to_payload_query_eq_empty (ra dec radius : String) :
    (args_to_payload_query ra dec radius (some "")).data = (adqlBase ra dec radius).data := by
  simp [args_to_payload_query]

set_option maxRecDepth 4000 in
/-- The base statement decomposed around the full spatial predicate. -/
theorem adqlBase_marker_decomp (ra dec radius : String) :
    (adqlBase ra dec radius).data =
      (adqlP1 ++ adqlP2 ++ "WHERE ").data ++
      (("INTERSECTS( CIRCLE('ICRS', " ++ ra ++ ", " ++ dec ++ ", " ++ radius ++
        "), position_bounds) = 1").data ++ (" AND " ++ adqlP6).data) := by
  have h3 : adqlP3 = "WHERE " ++ "INTERSECTS( " := by decide
  have h4 : ("INTERSECTS( CIRCLE('ICRS', " : String) = "INTERSECTS( " ++ adqlP4 := by
    decide
  have h5 : adqlP5 = "), position_bounds) = 1" ++ " AND " := by decide
  simp only [adqlBase, h3, h4, h5, sdata, List.append_assoc]

set_option maxRecDepth 4000 in
/-- C1: for every coordinate, radius and optional collection input (the
coordinate and radius renderings being numeric), the query built by
`_args_to_payload` contains the full `INTERSECTS(CIRCLE(...),
position_bounds)` spatial predicate and the junk-quality exclusion clause,
and it contains the collection equality filter exactly when a non-empty
collection was supplied. -/
theorem c1_args_to_payload_adql_markers (ra dec radius : String)
    (collection : Option String)
    (hra : ∀ c ∈ ra.data, numericChar c) (hdec : ∀ c ∈ dec.data, numericChar c)
    (hrad : ∀ c ∈ radius.data, numericChar c) :
    containsStr ("INTERSECTS( CIRCLE('ICRS', " ++ ra ++ ", " ++ dec ++ ", " ++
      radius ++ "), position_bounds) = 1")
      (args_to_payload_query ra dec radius collection) ∧
    containsStr "(quality_flag IS NULL OR quality_flag != 'junk')"
      (args_to_payload_query ra dec radius collection) ∧
    (∀ c, collection = some c → ¬ c = "" →
      containsStr (" AND collection='" ++ c ++ "'")
        (args_to_payload_query ra dec radius collection)) ∧
    (containsStr " AND collection='" (args_to_payload_query ra dec radius collection)
      ↔ ∃ c, collection = some c ∧ ¬ c = "") := by
  have hlift : ∀ M : List Char, M <:+: (adqlBase ra dec radius).data →
      M <:+: (args_to_payload_query ra dec radius collection).data := by
    rintro M ⟨u, v, huv⟩
    exact ⟨u, v ++ (collectionSuffix collection).data,
      by rw [args_to_payload_query_eq, ← huv]; simp [List.append_assoc]⟩
  refine ⟨?_, ?_, ?_, ?_⟩
  · exact hlift _ ⟨(adqlP1 ++ adqlP2 ++ "WHERE ").data, (" AND " ++ adqlP6).data,
      by rw [adqlBase_marker_decomp, List.append_assoc]⟩
  · exact hlift _ ⟨(adqlP1 ++ adqlP2 ++ adqlP3 ++ adqlP4 ++ ra ++ ", " ++ dec ++
      ", " ++ radius ++ adqlP5).data, [],
      by simp [adqlBase, adqlP6, sdata, List.append_assoc]⟩
  · intro c hc hne
    subst hc
    exact ⟨(adqlBase ra dec radius).data, [],
      by simp [args_to_payload_query, adqlBase, hne, sdata, List.append_assoc]⟩
  · constructor
    · intro h
      cases collection with
      | none =>
        exfalso
        have h2 : (" AND collection='" : String).data <:+:
            (args_to_payload_query ra dec radius none).data := h
        rw [args_to_payload_query_eq_none] at h2
        have hll : ['l', 'l'] <:+: (" AND collection='" : String).data := by decide
        exact no_double_l_adqlBase ra dec radius hra hdec hrad (hll.trans h2)
      | some c =>
        by_cases hne : c = ""
        · exfalso
          subst hne
          have h2 : (" AND collection='" : String).data <:+:
              (args_to_payload_query ra dec radius (some "")).data := h
          rw [args_to_payload_query_eq_empty] at h2
          have hll : ['l', 'l'] <:+: (" AND collection='" : String).data := by decide
          exact no_double_l_adqlBase ra dec radius hra hdec hrad (hll.trans h2)
        · exact ⟨c, rfl, hne⟩
    · rintro ⟨c, hc, hne⟩
      subst hc
      exact ⟨(adqlBase ra dec radius).data, c.data ++ "'".data,
        by simp [args_to_payload_query, hne, sdata, List.append_assoc]⟩

set_option maxRecDepth 4000 in
/-- Witness for C1 at concrete numeric renderings and the CFHT collection. -/
theorem c1_witness :
    ((∀ c ∈ ("180.0" : String).data, numericChar c) ∧
     (∀ c ∈ ("-45.25" : String).data, numericChar c) ∧
     (∀ c ∈ ("0.016666666666667" : String).data, numericChar c)) ∧
    (containsStr ("INTERSECTS( CIRCLE('ICRS', " ++ "180.0" ++ ", " ++ "-45.25" ++
      ", " ++ "0.016666666666667" ++ "), position_bounds) = 1")
      (args_to_payload_query "180.0" "-45.25" "0.016666666666667" (some "CFHT")) ∧
    containsStr "(quality_flag IS NULL OR quality_flag != 'junk')"
      (args_to_payload_query "180.0" "-45.25" "0.016666666666667" (some "CFHT")) ∧
    (∀ c, (some "CFHT" : Option String) = some c → ¬ c = "" →
      containsStr (" AND collection='" ++ c ++ "'")
        (args_to_payload_query "180.0" "-45.25" "0.016666666666667" (some "CFHT"))) ∧
    (containsStr " AND collection='"
      (args_to_payload_query "180.0" "-45.25" "0.016666666666667" (some "CFHT"))
      ↔ ∃ c, (some "CFHT" : Option String) = some c ∧ ¬ c = "")) :=
  ⟨⟨by decide, by decide, by decide⟩,
   c1_args_to_payload_adql_markers "180.0" "-45.25" "0.016666666666667"
     (some "CFHT") (by decide) (by decide) (by decide)⟩
